import Mathlib

/-!
Verification of the cluster searcher of `manager/searcher/searcher.go`:
condition filtering, five-part weighted affinity scoring and ranking of
scheduler clusters.  Go `float64` arithmetic is embedded as exact rational
arithmetic over `ℚ`; Go maps with string keys and `""` defaults are embedded
as association lists with a defaulting lookup; the fallible `mapstructure`
decode of a cluster's untyped scope data is embedded as an `Option Scopes`
field holding the decode result.
-/

namespace Searcher

/-- ASCII lowercasing of one character, the per-character folding of Go
`strings.EqualFold` restricted to ASCII. -/
def lowerChar (c : Char) : Char :=
  if 65 ≤ c.toNat && c.toNat ≤ 90 then Char.ofNat (c.toNat + 32) else c

/-- Case-insensitive string equality, embedding Go `strings.EqualFold`
(restricted to per-character ASCII folding). -/
def equalFold (s t : String) : Bool :=
  s.data.map lowerChar == t.data.map lowerChar

/-- Splitting of a character list on a separator character, with Go
`strings.Split` semantics: the empty list yields one empty segment, and a
separator at either end yields an empty segment there. -/
def splitOnChar (sep : Char) : List Char → List (List Char)
  | [] => [[]]
  | c :: cs =>
    match splitOnChar sep cs with
    | [] => [[]]
    | r :: rs => if c == sep then [] :: r :: rs else (c :: r) :: rs

/-- Go `strings.Split` of a string on a one-character separator. -/
def stringSplit (s : String) (sep : Char) : List String :=
  (splitOnChar sep s.data).map String.mk

/-- Modelled from the spec: `types.AffinitySeparator` of `pkg/types` is the
one-character `|` separator of multi-element attribute strings. -/
def AffinitySeparator : Char := '|'

/-- Condition security domain key. -/
def ConditionSecurityDomain : String := "security_domain"

/-- Condition IDC key. -/
def ConditionIDC : String := "idc"

/-- Condition location key. -/
def ConditionLocation : String := "location"

/-- Security domain affinity weight (Go constant 0.4). -/
def securityDomainAffinityWeight : ℚ := 4 / 10

/-- CIDR affinity weight (Go constant 0.3). -/
def cidrAffinityWeight : ℚ := 3 / 10

/-- IDC affinity weight (Go constant 0.15). -/
def idcAffinityWeight : ℚ := 15 / 100

/-- Location affinity weight (Go constant 0.1). -/
def locationAffinityWeight : ℚ := 1 / 10

/-- Cluster type weight (Go constant 0.05). -/
def clusterTypeWeight : ℚ := 5 / 100

/-- Maximum score. -/
def maxScore : ℚ := 1

/-- Minimum score. -/
def minScore : ℚ := 0

/-- Maximum number of elements. -/
def maxElementLen : Nat := 5

/-- Modelled from the spec: `model.SecurityRule` of `manager/model` carries a
`domain` string, the case-insensitive comparison key. -/
structure SecurityRule where
  domain : String
deriving DecidableEq, BEq, Repr

/-- Modelled from the spec: `model.SecurityGroup` of `manager/model` carries
the ordered list of security rules of a cluster. -/
structure SecurityGroup where
  securityRules : List SecurityRule
deriving DecidableEq, BEq, Repr

/-- Scheduler cluster scopes (struct `Scopes` of searcher.go): IDC string,
location string and CIDR list. -/
structure Scopes where
  idc : String
  location : String
  cidrs : List String
deriving DecidableEq, BEq, Repr

/-- Modelled from the spec: `model.SchedulerCluster` of `manager/model`.
`schedulers` is the number of active schedulers (`len(cluster.Schedulers)` is
all the searcher reads).  `scopes` is the result of the fallible
`mapstructure` decode of the cluster's untyped scope data: `some` when the
data decodes, `none` for a decode failure. -/
structure SchedulerCluster where
  name : String
  isDefault : Bool
  schedulers : Nat
  securityGroup : SecurityGroup
  scopes : Option Scopes
deriving DecidableEq, BEq, Repr

/-- Association-list embedding of the Go `map[string]string` condition map. -/
abbrev CondMap := List (String × String)

/-- Go map indexing `conditions[key]`: the stored value, or `""` when the key
is absent. -/
def condLookup (conditions : CondMap) (key : String) : String :=
  match List.find? (fun p => p.1 == key) conditions with
  | some p => p.2
  | none => ""

/-- Per-cluster body of the filter loop of `FilterSchedulerClusters`
(searcher.go lines 142-174): the copies of `schedulerCluster` appended for
this element, in order.  The final branch appends the cluster once per
security rule whose domain case-insensitively equals the condition's
security domain (the Go loop has no break). -/
def filterOne (securityDomain : String) (schedulerCluster : SchedulerCluster) :
    List SchedulerCluster :=
  if schedulerCluster.schedulers == 0 then []
  else if securityDomain == "" then [schedulerCluster]
  else if schedulerCluster.isDefault then [schedulerCluster]
  else if schedulerCluster.securityGroup.securityRules.length == 0 then [schedulerCluster]
  else
    (schedulerCluster.securityGroup.securityRules.filter
      (fun securityRule => equalFold securityRule.domain securityDomain)).map
      (fun _ => schedulerCluster)

/-- Filter the scheduler clusters that dfdaemon can be used
(`FilterSchedulerClusters` of searcher.go). -/
def FilterSchedulerClusters (conditions : CondMap)
    (schedulerClusters : List SchedulerCluster) : List SchedulerCluster :=
  (schedulerClusters.map (filterOne (condLookup conditions ConditionSecurityDomain))).flatten

/-- Security domain affinity sub-score
(`calculateSecurityDomainAffinityScore` of searcher.go). -/
def calculateSecurityDomainAffinityScore (securityDomain : String)
    (securityRules : List SecurityRule) : ℚ :=
  if securityDomain == "" then minScore
  else if securityRules.length == 0 then minScore
  else maxScore

/-- Decimal digit test on one character. -/
def isDigitChar (c : Char) : Bool :=
  48 ≤ c.toNat && c.toNat ≤ 57

/-- Value of a decimal digit string. -/
def digitsToNat (cs : List Char) : Nat :=
  cs.foldl (fun acc c => acc * 10 + (c.toNat - 48)) 0

/-- Modelled from the spec: an octet field of a dotted-quad IPv4 address, as
parsed by the external `net` capability: decimal digits only, no redundant
leading zero, value at most 255. -/
def parseOctet (cs : List Char) : Option Nat :=
  if cs.isEmpty then none
  else if !(cs.all isDigitChar) then none
  else if cs.length > 1 && cs.headD '0' == '0' then none
  else
    let n := digitsToNat cs
    if n ≤ 255 then some n else none

/-- Modelled from the spec: `net.ParseIP` for dotted-quad IPv4 addresses (the
address family the searcher's CIDR scopes use), as a 32-bit value. -/
def parseIPv4 (s : String) : Option Nat :=
  match (splitOnChar '.' s.data).mapM parseOctet with
  | some [a, b, c, d] => some (((a * 256 + b) * 256 + c) * 256 + d)
  | _ => none

/-- Modelled from the spec: the prefix length field of a CIDR string,
0 to 32. -/
def parsePrefixLen (cs : List Char) : Option Nat :=
  if cs.isEmpty then none
  else if !(cs.all isDigitChar) then none
  else
    let n := digitsToNat cs
    if n ≤ 32 then some n else none

/-- Modelled from the spec: `net.ParseCIDR` for IPv4, returning the masked
network base address and the prefix length. -/
def parseCIDR (s : String) : Option (Nat × Nat) :=
  match splitOnChar '/' s.data with
  | [ipChars, lenChars] =>
    match parseIPv4 (String.mk ipChars), parsePrefixLen lenChars with
    | some ip, some len => some (ip / 2 ^ (32 - len) * 2 ^ (32 - len), len)
    | _, _ => none
  | _ => none

/-- Modelled from the spec: the range-membership containment test of the
external `cidranger` capability: an IP is in a network when the two agree on
the first `prefix` bits. -/
def ipInNetwork (network : Nat × Nat) (ip : Nat) : Bool :=
  ip / 2 ^ (32 - network.2) * 2 ^ (32 - network.2) == network.1

/-- CIDR affinity sub-score (`calculateCIDRAffinityScore` of searcher.go):
the range index is built from the parseable CIDR entries (unparsable entries
are skipped); an unparsable client IP makes the containment query fail,
which yields the minimum score. -/
def calculateCIDRAffinityScore (ip : String) (cidrs : List String) : ℚ :=
  let networks := cidrs.filterMap parseCIDR
  match parseIPv4 ip with
  | none => minScore
  | some ipNum =>
    if networks.any (fun network => ipInNetwork network ipNum) then maxScore
    else minScore

/-- IDC affinity sub-score (`calculateIDCAffinityScore` of searcher.go). -/
def calculateIDCAffinityScore (dst src : String) : ℚ :=
  if dst == "" || src == "" then minScore
  else if equalFold dst src then maxScore
  else if (stringSplit src AffinitySeparator).any (fun srcElement => equalFold dst srcElement) then
    maxScore
  else minScore

/-- The counting loop of `calculateMultiElementAffinityScore`: walk at most
`n` leading pairs, counting consecutive case-insensitive matches and stopping
at the first mismatch. -/
def matchedPrefixLen : List String → List String → Nat → Nat
  | _, _, 0 => 0
  | [], _, _ + 1 => 0
  | _ :: _, [], _ + 1 => 0
  | d :: ds, s :: ss, n + 1 =>
    if equalFold d s then matchedPrefixLen ds ss n + 1 else 0

/-- Location affinity sub-score
(`calculateMultiElementAffinityScore` of searcher.go). -/
def calculateMultiElementAffinityScore (dst src : String) : ℚ :=
  if dst == "" || src == "" then minScore
  else if equalFold dst src then maxScore
  else
    let dstElements := stringSplit dst AffinitySeparator
    let srcElements := stringSplit src AffinitySeparator
    let elementLen := Nat.min (Nat.min dstElements.length srcElements.length) maxElementLen
    (matchedPrefixLen dstElements srcElements elementLen : ℚ) / (maxElementLen : ℚ)

/-- Cluster type sub-score (`calculateClusterTypeScore` of searcher.go). -/
def calculateClusterTypeScore (cluster : SchedulerCluster) : ℚ :=
  if cluster.isDefault then maxScore else minScore

/-- Evaluate the degree of matching between scheduler cluster and dfdaemon
(`Evaluate` of searcher.go). -/
def Evaluate (ip hostname : String) (conditions : CondMap) (scopes : Scopes)
    (cluster : SchedulerCluster) : ℚ :=
  securityDomainAffinityWeight *
      calculateSecurityDomainAffinityScore (condLookup conditions ConditionSecurityDomain)
        cluster.securityGroup.securityRules +
    cidrAffinityWeight * calculateCIDRAffinityScore ip scopes.cidrs +
    idcAffinityWeight * calculateIDCAffinityScore (condLookup conditions ConditionIDC) scopes.idc +
    locationAffinityWeight *
      calculateMultiElementAffinityScore (condLookup conditions ConditionLocation)
        scopes.location +
    clusterTypeWeight * calculateClusterTypeScore cluster

/-- The `less` comparator passed to the sort of `FindSchedulerClusters`
(searcher.go lines 119-132): a failed scope decode of either side returns
`false`; otherwise compare `Evaluate` scores strictly. -/
def clusterLess (ip hostname : String) (conditions : CondMap)
    (a b : SchedulerCluster) : Bool :=
  match a.scopes with
  | none => false
  | some sa =>
    match b.scopes with
    | none => false
    | some sb =>
      decide (Evaluate ip hostname conditions sa a > Evaluate ip hostname conditions sb b)

/-- The non-strict order the sort establishes: `a` may precede `b` when `b`
is not strictly less-ordered before `a`. -/
def clusterLe (ip hostname : String) (conditions : CondMap)
    (a b : SchedulerCluster) : Prop :=
  clusterLess ip hostname conditions b a = false

instance (ip hostname : String) (conditions : CondMap) :
    DecidableRel (clusterLe ip hostname conditions) :=
  fun a b => instDecidableEqBool (clusterLess ip hostname conditions b a) false

/-- The sort of `FindSchedulerClusters`, embedded as a comparison sort that
produces a permutation ordered by the comparator (the guarantee of Go
`sort.Slice`). -/
def sortClusters (ip hostname : String) (conditions : CondMap)
    (clusters : List SchedulerCluster) : List SchedulerCluster :=
  List.insertionSort (clusterLe ip hostname conditions) clusters

/-- The two request-level failures of `FindSchedulerClusters`. -/
inductive SearchError where
  | emptyInput
  | noMatch (conditions : CondMap)
deriving DecidableEq, Repr

/-- FindSchedulerClusters finds scheduler clusters that best match the
evaluation (`FindSchedulerClusters` of searcher.go). -/
def FindSchedulerClusters (ip hostname : String) (conditions : CondMap)
    (schedulerClusters : List SchedulerCluster) :
    Except SearchError (List SchedulerCluster) :=
  if schedulerClusters.length == 0 then .error .emptyInput
  else if (FilterSchedulerClusters conditions schedulerClusters).length == 0 then
    .error (.noMatch conditions)
  else
    .ok (sortClusters ip hostname conditions
      (FilterSchedulerClusters conditions schedulerClusters))

/-- The element count the location walk is capped at:
`min(len(dstElements), len(srcElements), 5)`, named for use in statements. -/
def locationElementLen (dst src : String) : Nat :=
  Nat.min
    (Nat.min (stringSplit dst AffinitySeparator).length
      (stringSplit src AffinitySeparator).length)
    maxElementLen

/-- The matched-prefix run of the location walk, named for use in
statements. -/
def locationPrefixRun (dst src : String) : Nat :=
  matchedPrefixLen (stringSplit dst AffinitySeparator) (stringSplit src AffinitySeparator)
    (locationElementLen dst src)

/-- A concrete default cluster with decodable scopes, used to instantiate
theorems. -/
def sampleCluster : SchedulerCluster :=
  ⟨"sample", true, 1, ⟨[]⟩, some ⟨"", "", []⟩⟩

/-- A concrete non-default cluster with two security rules whose domains both
fold to the security domain `a`, and whose scope data fails to decode. -/
def twoRuleCluster : SchedulerCluster :=
  ⟨"two-rule", false, 1, ⟨[⟨"A"⟩, ⟨"a"⟩]⟩, none⟩

lemma securityDomain_score_bounds (sd : String) (rules : List SecurityRule) :
    0 ≤ calculateSecurityDomainAffinityScore sd rules ∧
      calculateSecurityDomainAffinityScore sd rules ≤ 1 := by
  unfold calculateSecurityDomainAffinityScore maxScore minScore
  split_ifs <;> norm_num

lemma cidr_score_bounds (ip : String) (cidrs : List String) :
    0 ≤ calculateCIDRAffinityScore ip cidrs ∧ calculateCIDRAffinityScore ip cidrs ≤ 1 := by
  unfold calculateCIDRAffinityScore maxScore minScore
  cases hip : parseIPv4 ip <;> simp only [] <;>
    first
    | (split_ifs <;> norm_num)
    | norm_num

lemma idc_score_bounds (dst src : String) :
    0 ≤ calculateIDCAffinityScore dst src ∧ calculateIDCAffinityScore dst src ≤ 1 := by
  unfold calculateIDCAffinityScore maxScore minScore
  split_ifs <;> norm_num

lemma matchedPrefixLen_le : ∀ (ds ss : List String) (n : Nat), matchedPrefixLen ds ss n ≤ n
  | _, _, 0 => by simp [matchedPrefixLen]
  | [], _, n + 1 => by simp [matchedPrefixLen]
  | _ :: _, [], n + 1 => by simp [matchedPrefixLen]
  | d :: ds, s :: ss, n + 1 => by
    simp only [matchedPrefixLen]
    split
    · exact Nat.succ_le_succ (matchedPrefixLen_le ds ss n)
    · exact Nat.zero_le _

lemma multiElement_score_bounds (dst src : String) :
    0 ≤ calculateMultiElementAffinityScore dst src ∧
      calculateMultiElementAffinityScore dst src ≤ 1 := by
  unfold calculateMultiElementAffinityScore maxScore minScore
  split_ifs
  · norm_num
  · norm_num
  · constructor
    · positivity
    · rw [div_le_one (by norm_num [maxElementLen])]
      have hk : matchedPrefixLen (stringSplit dst AffinitySeparator)
          (stringSplit src AffinitySeparator)
          (Nat.min (Nat.min (stringSplit dst AffinitySeparator).length
            (stringSplit src AffinitySeparator).length) maxElementLen) ≤ maxElementLen :=
        le_trans (matchedPrefixLen_le _ _ _) (Nat.min_le_right _ _)
      exact_mod_cast hk

lemma clusterType_score_bounds (cluster : SchedulerCluster) :
    0 ≤ calculateClusterTypeScore cluster ∧ calculateClusterTypeScore cluster ≤ 1 := by
  unfold calculateClusterTypeScore maxScore minScore
  split_ifs <;> norm_num

lemma evaluate_bounds (ip hostname : String) (conds : CondMap) (scopes : Scopes)
    (cluster : SchedulerCluster) :
    0 ≤ Evaluate ip hostname conds scopes cluster ∧
      Evaluate ip hostname conds scopes cluster ≤ 1 := by
  obtain ⟨h1a, h1b⟩ := securityDomain_score_bounds
    (condLookup conds ConditionSecurityDomain) cluster.securityGroup.securityRules
  obtain ⟨h2a, h2b⟩ := cidr_score_bounds ip scopes.cidrs
  obtain ⟨h3a, h3b⟩ := idc_score_bounds (condLookup conds ConditionIDC) scopes.idc
  obtain ⟨h4a, h4b⟩ := multiElement_score_bounds (condLookup conds ConditionLocation)
    scopes.location
  obtain ⟨h5a, h5b⟩ := clusterType_score_bounds cluster
  unfold Evaluate securityDomainAffinityWeight cidrAffinityWeight idcAffinityWeight
    locationAffinityWeight clusterTypeWeight
  constructor <;> linarith

/-- C1: for every client IP, hostname, condition map, scope and cluster, each
of the five sub-scores (security-domain, CIDR, IDC, location, cluster-type)
lies in [0, 1], and the combined weighted score returned by `Evaluate` lies
in [0, 1]. -/
theorem evaluate_and_subscores_bounded (ip hostname : String) (conds : CondMap)
    (scopes : Scopes) (cluster : SchedulerCluster) :
    (0 ≤ calculateSecurityDomainAffinityScore (condLookup conds ConditionSecurityDomain)
        cluster.securityGroup.securityRules ∧
      calculateSecurityDomainAffinityScore (condLookup conds ConditionSecurityDomain)
        cluster.securityGroup.securityRules ≤ 1) ∧
    (0 ≤ calculateCIDRAffinityScore ip scopes.cidrs ∧
      calculateCIDRAffinityScore ip scopes.cidrs ≤ 1) ∧
    (0 ≤ calculateIDCAffinityScore (condLookup conds ConditionIDC) scopes.idc ∧
      calculateIDCAffinityScore (condLookup conds ConditionIDC) scopes.idc ≤ 1) ∧
    (0 ≤ calculateMultiElementAffinityScore (condLookup conds ConditionLocation)
        scopes.location ∧
      calculateMultiElementAffinityScore (condLookup conds ConditionLocation)
        scopes.location ≤ 1) ∧
    (0 ≤ calculateClusterTypeScore cluster ∧ calculateClusterTypeScore cluster ≤ 1) ∧
    (0 ≤ Evaluate ip hostname conds scopes cluster ∧
      Evaluate ip hostname conds scopes cluster ≤ 1) :=
  ⟨securityDomain_score_bounds _ _, cidr_score_bounds _ _, idc_score_bounds _ _,
    multiElement_score_bounds _ _, clusterType_score_bounds _,
    evaluate_bounds ip hostname conds scopes cluster⟩

lemma securityDomain_score_eq (sd : String) (rules : List SecurityRule) :
    calculateSecurityDomainAffinityScore sd rules =
      if sd = "" ∨ rules = [] then 0 else 1 := by
  by_cases hsd : sd = "" <;> by_cases hr : rules = [] <;>
    simp [calculateSecurityDomainAffinityScore, maxScore, minScore, hsd, hr,
      List.length_eq_zero]

/-- C7: the security-domain affinity sub-score is 1 exactly when the client's
declared security domain is non-empty and the cluster has at least one
security rule, and 0 otherwise; it depends only on the presence of the two
attributes, never on the domain strings themselves. -/
theorem security_domain_affinity_spec (sd : String) (rules : List SecurityRule) :
    (calculateSecurityDomainAffinityScore sd rules = 1 ↔ sd ≠ "" ∧ rules ≠ []) ∧
    (calculateSecurityDomainAffinityScore sd rules = 0 ↔ sd = "" ∨ rules = []) ∧
    (∀ (sd2 : String) (rules2 : List SecurityRule),
      (sd = "" ↔ sd2 = "") → (rules = [] ↔ rules2 = []) →
      calculateSecurityDomainAffinityScore sd rules =
        calculateSecurityDomainAffinityScore sd2 rules2) := by
  refine ⟨?_, ?_, ?_⟩
  · rw [securityDomain_score_eq]
    split_ifs with h
    · exact iff_of_false (by norm_num) (by tauto)
    · exact iff_of_true rfl (by tauto)
  · rw [securityDomain_score_eq]
    split_ifs with h
    · exact iff_of_true rfl h
    · exact iff_of_false (by norm_num) h
  · intro sd2 rules2 h1 h2
    rw [securityDomain_score_eq, securityDomain_score_eq]
    by_cases h : sd = "" ∨ rules = []
    · rw [if_pos h, if_pos (by tauto)]
    · rw [if_neg h, if_neg (by tauto)]

/-- Witness for C7 at a concrete input: a non-empty domain and a one-rule
list score 1 regardless of whether the strings match. -/
theorem security_domain_affinity_spec_witness :
    ("client-domain" ≠ "" ∧ [SecurityRule.mk "other-domain"] ≠ ([] : List SecurityRule)) ∧
    calculateSecurityDomainAffinityScore "client-domain" [SecurityRule.mk "other-domain"] = 1 :=
  ⟨⟨by decide, by decide⟩,
    (security_domain_affinity_spec "client-domain" [SecurityRule.mk "other-domain"]).1.mpr
      ⟨by decide, by decide⟩⟩

lemma idc_score_eq (dst src : String) :
    calculateIDCAffinityScore dst src =
      if dst = "" ∨ src = "" then 0
      else if equalFold dst src = true ∨
          ∃ e ∈ stringSplit src AffinitySeparator, equalFold dst e = true then 1
      else 0 := by
  unfold calculateIDCAffinityScore minScore maxScore
  split_ifs <;> simp_all [List.any_eq_true]
  rename_i hfold hall hne hex
  obtain ⟨e, he, hf⟩ := hex
  rw [hall e he] at hf
  simp at hf

/-- C6: the IDC affinity sub-score is 0 when either side is empty; otherwise
it is 1 exactly when the client idc case-insensitively equals the cluster's
whole idc string or one of its `|`-separated alternatives, and 0 otherwise;
for example client idc `x` against cluster idc `x|y|z` scores 1 and client
idc `w` against `x|y|z` scores 0. -/
theorem idc_affinity_spec (dst src : String) :
    (dst = "" ∨ src = "" → calculateIDCAffinityScore dst src = 0) ∧
    (dst ≠ "" → src ≠ "" →
      (calculateIDCAffinityScore dst src = 1 ↔
        equalFold dst src = true ∨
          ∃ e ∈ stringSplit src AffinitySeparator, equalFold dst e = true) ∧
      (calculateIDCAffinityScore dst src = 0 ↔
        ¬(equalFold dst src = true ∨
          ∃ e ∈ stringSplit src AffinitySeparator, equalFold dst e = true))) ∧
    calculateIDCAffinityScore "x" "x|y|z" = 1 ∧
    calculateIDCAffinityScore "w" "x|y|z" = 0 := by
  refine ⟨?_, ?_, by decide, by decide⟩
  · intro h
    rw [idc_score_eq, if_pos h]
  · intro hd hs
    constructor
    · rw [idc_score_eq, if_neg (by tauto)]
      split_ifs with h
      · exact iff_of_true rfl h
      · exact iff_of_false (by norm_num) h
    · rw [idc_score_eq, if_neg (by tauto)]
      split_ifs with h
      · exact iff_of_false (by norm_num) (not_not_intro h)
      · exact iff_of_true rfl h

/-- Witness for C6 at a concrete input: both sides non-empty, and the score-1
characterization holds for client idc `x` against `x|y|z`. -/
theorem idc_affinity_spec_witness :
    ("x" ≠ "" ∧ "x|y|z" ≠ "") ∧
    (calculateIDCAffinityScore "x" "x|y|z" = 1 ↔
      equalFold "x" "x|y|z" = true ∨
        ∃ e ∈ stringSplit "x|y|z" AffinitySeparator, equalFold "x" e = true) :=
  ⟨⟨by decide, by decide⟩,
    ((idc_affinity_spec "x" "x|y|z").2.1 (by decide) (by decide)).1⟩

lemma matchedPrefixLen_matches :
    ∀ (ds ss : List String) (n i : Nat), i < matchedPrefixLen ds ss n →
      equalFold (ds.getD i "") (ss.getD i "") = true
  | _, _, 0, i => by simp [matchedPrefixLen]
  | [], _, n + 1, i => by simp [matchedPrefixLen]
  | _ :: _, [], n + 1, i => by simp [matchedPrefixLen]
  | d :: ds, s :: ss, n + 1, i => by
    cases hb : equalFold d s with
    | false => simp [matchedPrefixLen, hb]
    | true =>
      intro hi
      rw [matchedPrefixLen, if_pos hb] at hi
      cases i with
      | zero => simpa using hb
      | succ j =>
        have hj : j < matchedPrefixLen ds ss n := by omega
        simpa using matchedPrefixLen_matches ds ss n j hj

lemma matchedPrefixLen_first_mismatch :
    ∀ (ds ss : List String) (n : Nat), n ≤ ds.length → n ≤ ss.length →
      matchedPrefixLen ds ss n < n →
      equalFold (ds.getD (matchedPrefixLen ds ss n) "")
        (ss.getD (matchedPrefixLen ds ss n) "") = false
  | _, _, 0 => by omega
  | [], _, n + 1 => by intro hd; simp at hd
  | _ :: _, [], n + 1 => by intro _ hs; simp at hs
  | d :: ds, s :: ss, n + 1 => by
    intro hd hs hlt
    cases hb : equalFold d s with
    | false =>
      rw [matchedPrefixLen, if_neg (by simp [hb])]
      simpa using hb
    | true =>
      rw [matchedPrefixLen, if_pos hb] at hlt ⊢
      simp only [List.getD_cons_succ]
      exact matchedPrefixLen_first_mismatch ds ss n (by simpa using hd)
        (by simpa using hs) (by omega)

lemma multiElement_score_eval (dst src : String) (hne : ¬(dst = "" ∨ src = ""))
    (hfold : equalFold dst src = false) :
    calculateMultiElementAffinityScore dst src = (locationPrefixRun dst src : ℚ) / 5 := by
  have h1 : (dst == "" || src == "") = false := by
    push_neg at hne
    simp [hne.1, hne.2]
  simp [calculateMultiElementAffinityScore, h1, hfold, locationPrefixRun, locationElementLen,
    maxElementLen]

/-- C5: the location affinity sub-score is 0 when either location string is
empty, 1 on exact case-insensitive equality, and otherwise is the length of
the run of consecutive case-insensitive segment matches starting at index 0
(over the first `min(len(client segments), len(cluster segments), 5)` pairs,
stopping at the first mismatch) divided by 5; for example client
`r1|z1|rack1` against cluster `r1|z1|rack2` scores 2/5. -/
theorem location_affinity_spec (dst src : String) :
    (dst = "" ∨ src = "" → calculateMultiElementAffinityScore dst src = 0) ∧
    (dst ≠ "" → src ≠ "" → equalFold dst src = true →
      calculateMultiElementAffinityScore dst src = 1) ∧
    (dst ≠ "" → src ≠ "" → equalFold dst src = false →
      calculateMultiElementAffinityScore dst src = (locationPrefixRun dst src : ℚ) / 5 ∧
      locationPrefixRun dst src ≤ locationElementLen dst src ∧
      (∀ i, i < locationPrefixRun dst src →
        equalFold ((stringSplit dst AffinitySeparator).getD i "")
          ((stringSplit src AffinitySeparator).getD i "") = true) ∧
      (locationPrefixRun dst src < locationElementLen dst src →
        equalFold ((stringSplit dst AffinitySeparator).getD (locationPrefixRun dst src) "")
          ((stringSplit src AffinitySeparator).getD (locationPrefixRun dst src) "") = false)) ∧
    calculateMultiElementAffinityScore "r1|z1|rack1" "r1|z1|rack2" = 2 / 5 := by
  refine ⟨?_, ?_, ?_, ?_⟩
  · intro h
    rcases h with h | h <;> simp [calculateMultiElementAffinityScore, minScore, h]
  · intro hd hs hfold
    simp [calculateMultiElementAffinityScore, maxScore, hd, hs, hfold]
  · intro hd hs hfold
    refine ⟨multiElement_score_eval dst src (by tauto) hfold, ?_, ?_, ?_⟩
    · exact matchedPrefixLen_le _ _ _
    · intro i hi
      exact matchedPrefixLen_matches _ _ _ i hi
    · intro hlt
      have hd2 : locationElementLen dst src ≤ (stringSplit dst AffinitySeparator).length :=
        Nat.le_trans (Nat.min_le_left _ _) (Nat.min_le_left _ _)
      have hs2 : locationElementLen dst src ≤ (stringSplit src AffinitySeparator).length :=
        Nat.le_trans (Nat.min_le_left _ _) (Nat.min_le_right _ _)
      exact matchedPrefixLen_first_mismatch _ _ _ hd2 hs2 hlt
  · rw [multiElement_score_eval "r1|z1|rack1" "r1|z1|rack2" (by decide) (by decide)]
    norm_num [show locationPrefixRun "r1|z1|rack1" "r1|z1|rack2" = 2 from by decide]

/-- Witness for C5 at a concrete input: `r1|z1|rack1` against `r1|z1|rack2`
is the mismatch case and its score is the prefix run divided by 5. -/
theorem location_affinity_spec_witness :
    ("r1|z1|rack1" ≠ "" ∧ "r1|z1|rack2" ≠ "" ∧
      equalFold "r1|z1|rack1" "r1|z1|rack2" = false) ∧
    calculateMultiElementAffinityScore "r1|z1|rack1" "r1|z1|rack2" =
      (locationPrefixRun "r1|z1|rack1" "r1|z1|rack2" : ℚ) / 5 :=
  ⟨⟨by decide, by decide, by decide⟩,
    ((location_affinity_spec "r1|z1|rack1" "r1|z1|rack2").2.2.1 (by decide) (by decide)
      (by decide)).1⟩

lemma cidr_score_none (ip : String) (cidrs : List String) (h : parseIPv4 ip = none) :
    calculateCIDRAffinityScore ip cidrs = 0 := by
  simp [calculateCIDRAffinityScore, h, minScore]

lemma cidr_score_some (ip : String) (cidrs : List String) (ipn : Nat)
    (h : parseIPv4 ip = some ipn) :
    calculateCIDRAffinityScore ip cidrs =
      if ((cidrs.filterMap parseCIDR).any (fun network => ipInNetwork network ipn)) = true
      then 1 else 0 := by
  simp only [calculateCIDRAffinityScore, h, minScore, maxScore]

lemma cidr_score_one_iff (ip : String) (cidrs : List String) :
    calculateCIDRAffinityScore ip cidrs = 1 ↔
      ∃ ipn, parseIPv4 ip = some ipn ∧
        ∃ cidr ∈ cidrs, ∃ network, parseCIDR cidr = some network ∧
          ipInNetwork network ipn = true := by
  cases hip : parseIPv4 ip with
  | none =>
    rw [cidr_score_none ip cidrs hip]
    refine iff_of_false (by norm_num) ?_
    rintro ⟨ipn, hipn, _⟩
    exact Option.noConfusion hipn
  | some ipNum =>
    rw [cidr_score_some ip cidrs ipNum hip]
    split_ifs with h
    · refine iff_of_true rfl ?_
      obtain ⟨network, ⟨cidr, hmem, hparse⟩, hin⟩ := by
        simpa only [List.any_eq_true, List.mem_filterMap] using h
      exact ⟨ipNum, rfl, cidr, hmem, network, hparse, hin⟩
    · refine iff_of_false (by norm_num) ?_
      rintro ⟨ipn, hipn, cidr, hmem, network, hparse, hin⟩
      obtain rfl : ipNum = ipn := Option.some.inj hipn
      refine h ?_
      simp only [List.any_eq_true, List.mem_filterMap]
      exact ⟨network, ⟨cidr, hmem, hparse⟩, hin⟩

lemma cidr_score_vals (ip : String) (cidrs : List String) :
    calculateCIDRAffinityScore ip cidrs = 0 ∨ calculateCIDRAffinityScore ip cidrs = 1 := by
  cases hip : parseIPv4 ip with
  | none => exact Or.inl (cidr_score_none ip cidrs hip)
  | some ipNum =>
    rw [cidr_score_some ip cidrs ipNum hip]
    split_ifs <;> simp

lemma cidr_score_zero_iff (ip : String) (cidrs : List String) :
    calculateCIDRAffinityScore ip cidrs = 0 ↔
      ¬∃ ipn, parseIPv4 ip = some ipn ∧
        ∃ cidr ∈ cidrs, ∃ network, parseCIDR cidr = some network ∧
          ipInNetwork network ipn = true := by
  rcases cidr_score_vals ip cidrs with h | h
  · refine iff_of_true h ?_
    intro hp
    have h1 := (cidr_score_one_iff ip cidrs).mpr hp
    rw [h] at h1
    norm_num at h1
  · rw [h]
    exact iff_of_false (by norm_num) (not_not_intro ((cidr_score_one_iff ip cidrs).mp h))

/-- C8: the CIDR affinity sub-score is 1 exactly when the client IP parses
and is contained in at least one parseable CIDR entry of the cluster scope's
CIDR set, and 0 otherwise; an unparsable CIDR entry is skipped without
affecting the other entries; cluster CIDRs `10.0.0.0/24` score 1 for client
IP `10.0.0.5` and 0 for `10.0.1.5`. -/
theorem cidr_affinity_spec :
    (∀ (ip : String) (cidrs : List String),
      (calculateCIDRAffinityScore ip cidrs = 1 ↔
        ∃ ipNum, parseIPv4 ip = some ipNum ∧
          ∃ cidr ∈ cidrs, ∃ network, parseCIDR cidr = some network ∧
            ipInNetwork network ipNum = true) ∧
      (calculateCIDRAffinityScore ip cidrs = 0 ↔
        ¬∃ ipNum, parseIPv4 ip = some ipNum ∧
          ∃ cidr ∈ cidrs, ∃ network, parseCIDR cidr = some network ∧
            ipInNetwork network ipNum = true)) ∧
    (∀ (ip bad : String) (pre post : List String), parseCIDR bad = none →
      calculateCIDRAffinityScore ip (pre ++ bad :: post) =
        calculateCIDRAffinityScore ip (pre ++ post)) ∧
    calculateCIDRAffinityScore "10.0.0.5" ["10.0.0.0/24"] = 1 ∧
    calculateCIDRAffinityScore "10.0.1.5" ["10.0.0.0/24"] = 0 := by
  refine ⟨?_, ?_, by decide, by decide⟩
  · intro ip cidrs
    exact ⟨cidr_score_one_iff ip cidrs, cidr_score_zero_iff ip cidrs⟩
  · intro ip bad pre post hbad
    simp [calculateCIDRAffinityScore, List.filterMap_append, List.filterMap_cons, hbad]

/-- Witness for C8 at a concrete input: the unparsable entry `bogus` is
skipped without affecting the other entries. -/
theorem cidr_affinity_spec_witness :
    parseCIDR "bogus" = none ∧
    calculateCIDRAffinityScore "10.0.0.5" (["10.0.0.0/8"] ++ "bogus" :: ["10.0.0.0/24"]) =
      calculateCIDRAffinityScore "10.0.0.5" (["10.0.0.0/8"] ++ ["10.0.0.0/24"]) :=
  ⟨by decide,
    cidr_affinity_spec.2.1 "10.0.0.5" "bogus" ["10.0.0.0/8"] ["10.0.0.0/24"] (by decide)⟩

/-- C10: when the cluster scope's CIDR set is non-empty and the client IP
string is not a parseable IP address, the CIDR affinity sub-score is 0 (the
containment query's error is swallowed) and `Evaluate` still returns a
defined score in [0, 1]; an unparsable client IP never fails the request. -/
theorem unparsable_ip_degrades_gracefully (ip hostname : String) (conds : CondMap)
    (scopes : Scopes) (cluster : SchedulerCluster)
    (hip : parseIPv4 ip = none) (hcidrs : scopes.cidrs ≠ []) :
    calculateCIDRAffinityScore ip scopes.cidrs = 0 ∧
    0 ≤ Evaluate ip hostname conds scopes cluster ∧
    Evaluate ip hostname conds scopes cluster ≤ 1 := by
  refine ⟨?_, (evaluate_bounds ip hostname conds scopes cluster).1,
    (evaluate_bounds ip hostname conds scopes cluster).2⟩
  simp [calculateCIDRAffinityScore, hip, minScore]

/-- Witness for C10 at a concrete input: the IP string `HELLO` does not
parse, the scope has one CIDR, and all three conclusions hold. -/
theorem unparsable_ip_degrades_gracefully_witness :
    (parseIPv4 "HELLO" = none ∧ Scopes.cidrs ⟨"", "", ["10.0.0.0/24"]⟩ ≠ []) ∧
    (calculateCIDRAffinityScore "HELLO" (Scopes.cidrs ⟨"", "", ["10.0.0.0/24"]⟩) = 0 ∧
      0 ≤ Evaluate "HELLO" "host" [] ⟨"", "", ["10.0.0.0/24"]⟩ sampleCluster ∧
      Evaluate "HELLO" "host" [] ⟨"", "", ["10.0.0.0/24"]⟩ sampleCluster ≤ 1) :=
  ⟨⟨by decide, by decide⟩,
    unparsable_ip_degrades_gracefully "HELLO" "host" [] ⟨"", "", ["10.0.0.0/24"]⟩
      sampleCluster (by decide) (by decide)⟩

lemma find_ok_iff (ip hostname : String) (conds : CondMap) (cs out : List SchedulerCluster) :
    FindSchedulerClusters ip hostname conds cs = .ok out ↔
      cs ≠ [] ∧ FilterSchedulerClusters conds cs ≠ [] ∧
        out = sortClusters ip hostname conds (FilterSchedulerClusters conds cs) := by
  unfold FindSchedulerClusters
  split_ifs with h1 h2
  · constructor
    · intro h
      exact h.elim
    · rintro ⟨hne, -, -⟩
      exact absurd (by simpa [List.length_eq_zero] using h1) hne
  · constructor
    · intro h
      exact h.elim
    · rintro ⟨-, hfne, -⟩
      exact absurd (by simpa [List.length_eq_zero] using h2) hfne
  · constructor
    · intro h
      exact ⟨by simpa [List.length_eq_zero] using h1, by simpa [List.length_eq_zero] using h2,
        (Except.ok.inj h).symm⟩
    · rintro ⟨-, -, rfl⟩
      rfl

lemma mem_filterOne (sd : String) (x c : SchedulerCluster) (h : c ∈ filterOne sd x) :
    c = x := by
  unfold filterOne at h
  split_ifs at h <;> simp_all [List.mem_map]

lemma filterOne_schedulers (sd : String) (x c : SchedulerCluster) (h : c ∈ filterOne sd x) :
    x.schedulers ≠ 0 := by
  unfold filterOne at h
  split_ifs at h with h1
  · simp at h
  all_goals
    intro h0
    exact h1 (by simp [h0])

lemma mem_FilterSchedulerClusters (conds : CondMap) (cs : List SchedulerCluster)
    (c : SchedulerCluster) :
    c ∈ FilterSchedulerClusters conds cs ↔
      ∃ x ∈ cs, c ∈ filterOne (condLookup conds ConditionSecurityDomain) x := by
  simp [FilterSchedulerClusters, List.mem_flatten]

lemma filterOne_rules_eq (sd : String) (c : SchedulerCluster) (hsd : sd ≠ "")
    (hdef : c.isDefault = false) (hsched : c.schedulers ≠ 0)
    (hrules : c.securityGroup.securityRules ≠ []) :
    filterOne sd c =
      (c.securityGroup.securityRules.filter
        (fun securityRule => equalFold securityRule.domain sd)).map (fun _ => c) := by
  unfold filterOne
  rw [if_neg (by simp [hsched]), if_neg (by simp [hsd]), if_neg (by simp [hdef]),
    if_neg (by simp [hrules])]

lemma map_const_eq_replicate {α β : Type} (l : List α) (b : β) :
    l.map (fun _ => b) = List.replicate l.length b := by
  induction l with
  | nil => rfl
  | cons a l ih => simp [ih, List.replicate_succ]

/-- Counterexample to C2 as stated: under security domain `a`, a non-default
one-scheduler cluster whose two rule domains `A` and `a` both fold to `a` is
appended once per matching rule, so it appears twice in the filter output of
a one-cluster candidate list, refuting "each input cluster appears at most
once in the filter's output". -/
theorem filter_duplicate_counterexample :
    twoRuleCluster.isDefault = false ∧ twoRuleCluster.schedulers ≠ 0 ∧
    twoRuleCluster.securityGroup.securityRules ≠ [] ∧
    condLookup [("security_domain", "a")] ConditionSecurityDomain ≠ "" ∧
    FilterSchedulerClusters [("security_domain", "a")] [twoRuleCluster] =
      [twoRuleCluster, twoRuleCluster] ∧
    (FilterSchedulerClusters [("security_domain", "a")] [twoRuleCluster]).length = 2 :=
  ⟨rfl, by decide, by decide, by decide, by decide, by decide⟩

/-- C2 amended: for every condition map carrying a non-empty security domain
and every non-default cluster with at least one scheduler and at least one
security rule, the filter includes that cluster if and only if at least one
of its rule domains case-insensitively equals the declared security domain;
the cluster is appended once per matching rule (the rule loop has no break),
so the filter output of the singleton candidate list is the cluster
replicated once per matching rule and may contain it more than once. -/
theorem filter_security_domain_membership (conds : CondMap) (cs : List SchedulerCluster)
    (c : SchedulerCluster)
    (hsd : condLookup conds ConditionSecurityDomain ≠ "")
    (hdef : c.isDefault = false)
    (hsched : c.schedulers ≠ 0)
    (hrules : c.securityGroup.securityRules ≠ []) :
    (c ∈ FilterSchedulerClusters conds cs ↔
      c ∈ cs ∧ ∃ r ∈ c.securityGroup.securityRules,
        equalFold r.domain (condLookup conds ConditionSecurityDomain) = true) ∧
    FilterSchedulerClusters conds [c] =
      List.replicate
        ((c.securityGroup.securityRules.filter
          (fun securityRule =>
            equalFold securityRule.domain (condLookup conds ConditionSecurityDomain))).length)
        c := by
  have hone : filterOne (condLookup conds ConditionSecurityDomain) c =
      (c.securityGroup.securityRules.filter
        (fun securityRule =>
          equalFold securityRule.domain (condLookup conds ConditionSecurityDomain))).map
        (fun _ => c) :=
    filterOne_rules_eq _ c hsd hdef hsched hrules
  constructor
  · constructor
    · intro h
      obtain ⟨x, hx, hcx⟩ := (mem_FilterSchedulerClusters conds cs c).mp h
      obtain rfl : c = x := mem_filterOne _ x c hcx
      rw [hone] at hcx
      obtain ⟨r, hr, _⟩ := List.mem_map.mp hcx
      have hrf := List.mem_filter.mp hr
      exact ⟨hx, r, hrf.1, hrf.2⟩
    · rintro ⟨hc, r, hr, hfold⟩
      refine (mem_FilterSchedulerClusters conds cs c).mpr ⟨c, hc, ?_⟩
      rw [hone]
      exact List.mem_map.mpr ⟨r, List.mem_filter.mpr ⟨hr, hfold⟩, rfl⟩
  · have : FilterSchedulerClusters conds [c] =
        filterOne (condLookup conds ConditionSecurityDomain) c := by
      simp [FilterSchedulerClusters]
    rw [this, hone, map_const_eq_replicate]

/-- Witness for the amended C2 at a concrete input: the two-rule cluster is
included, and the singleton filter output is the cluster replicated twice. -/
theorem filter_security_domain_membership_witness :
    (condLookup [("security_domain", "a")] ConditionSecurityDomain ≠ "" ∧
      twoRuleCluster.isDefault = false ∧ twoRuleCluster.schedulers ≠ 0 ∧
      twoRuleCluster.securityGroup.securityRules ≠ []) ∧
    ((twoRuleCluster ∈ FilterSchedulerClusters [("security_domain", "a")] [twoRuleCluster] ↔
      twoRuleCluster ∈ [twoRuleCluster] ∧
        ∃ r ∈ twoRuleCluster.securityGroup.securityRules,
          equalFold r.domain
            (condLookup [("security_domain", "a")] ConditionSecurityDomain) = true) ∧
    FilterSchedulerClusters [("security_domain", "a")] [twoRuleCluster] =
      List.replicate
        ((twoRuleCluster.securityGroup.securityRules.filter
          (fun securityRule =>
            equalFold securityRule.domain
              (condLookup [("security_domain", "a")] ConditionSecurityDomain))).length)
        twoRuleCluster) :=
  ⟨⟨by decide, by decide, by decide, by decide⟩,
    filter_security_domain_membership [("security_domain", "a")] [twoRuleCluster]
      twoRuleCluster (by decide) (by decide) (by decide) (by decide)⟩

/-- C9: a cluster with zero active schedulers never appears in the filter's
output, and hence never in the result of FindSchedulerClusters, regardless
of any score it would receive. -/
theorem filter_excludes_inactive_clusters (conds : CondMap) (cs : List SchedulerCluster) :
    (∀ c ∈ FilterSchedulerClusters conds cs, c.schedulers ≠ 0) ∧
    (∀ (ip hostname : String) (out : List SchedulerCluster),
      FindSchedulerClusters ip hostname conds cs = .ok out →
      ∀ c ∈ out, c.schedulers ≠ 0) := by
  have hfil : ∀ c ∈ FilterSchedulerClusters conds cs, c.schedulers ≠ 0 := by
    intro c hc
    obtain ⟨x, _, hcx⟩ := (mem_FilterSchedulerClusters conds cs c).mp hc
    have hx := filterOne_schedulers _ x c hcx
    rw [mem_filterOne _ x c hcx]
    exact hx
  refine ⟨hfil, ?_⟩
  intro ip hostname out hok c hc
  obtain ⟨-, -, rfl⟩ := (find_ok_iff ip hostname conds cs out).mp hok
  exact hfil c ((List.mem_insertionSort _).mp hc)

/-- Witness for C9 at a concrete input: a one-cluster candidate list with one
scheduler. -/
theorem filter_excludes_inactive_clusters_witness :
    (∀ c ∈ FilterSchedulerClusters [] [sampleCluster], c.schedulers ≠ 0) ∧
    (∀ (ip hostname : String) (out : List SchedulerCluster),
      FindSchedulerClusters ip hostname [] [sampleCluster] = .ok out →
      ∀ c ∈ out, c.schedulers ≠ 0) :=
  filter_excludes_inactive_clusters [] [sampleCluster]

/-- C4: FindSchedulerClusters fails with EmptyInput exactly when the
candidate cluster list is empty; it fails with NoMatch carrying the condition
map exactly when the candidate list is non-empty but filtering removes every
candidate; in every other case it returns the ordered list and no error. -/
theorem findSchedulerClusters_error_taxonomy (ip hostname : String) (conds : CondMap)
    (cs : List SchedulerCluster) :
    (FindSchedulerClusters ip hostname conds cs = .error .emptyInput ↔ cs = []) ∧
    (FindSchedulerClusters ip hostname conds cs = .error (.noMatch conds) ↔
      cs ≠ [] ∧ FilterSchedulerClusters conds cs = []) ∧
    (cs ≠ [] → FilterSchedulerClusters conds cs ≠ [] →
      FindSchedulerClusters ip hostname conds cs =
        .ok (sortClusters ip hostname conds (FilterSchedulerClusters conds cs))) := by
  unfold FindSchedulerClusters
  split_ifs with h1 h2
  · have hcs : cs = [] := by simpa [List.length_eq_zero] using h1
    refine ⟨iff_of_true rfl hcs, ?_, ?_⟩
    · refine iff_of_false ?_ ?_
      · intro h
        exact SearchError.noConfusion (Except.error.inj h)
      · rintro ⟨hne, -⟩
        exact hne hcs
    · intro hne
      exact absurd hcs hne
  · have hcs : cs ≠ [] := by simpa [List.length_eq_zero] using h1
    have hf : FilterSchedulerClusters conds cs = [] := by
      simpa [List.length_eq_zero] using h2
    refine ⟨?_, iff_of_true rfl ⟨hcs, hf⟩, ?_⟩
    · refine iff_of_false ?_ ?_
      · intro h
        exact SearchError.noConfusion (Except.error.inj h)
      · intro hcs2
        exact hcs hcs2
    · intro _ hfne
      exact absurd hf hfne
  · have hcs : cs ≠ [] := by simpa [List.length_eq_zero] using h1
    have hf : FilterSchedulerClusters conds cs ≠ [] := by
      simpa [List.length_eq_zero] using h2
    exact ⟨iff_of_false (by simp) (fun h => hcs h),
      iff_of_false (by simp) (fun h => hf h.2),
      fun _ _ => rfl⟩

/-- Witness for C4 at a concrete input: a non-empty candidate list whose
filter result is non-empty returns the ordered list and no error. -/
theorem findSchedulerClusters_error_taxonomy_witness :
    ([sampleCluster] ≠ ([] : List SchedulerCluster) ∧
      FilterSchedulerClusters [] [sampleCluster] ≠ []) ∧
    FindSchedulerClusters "1.2.3.4" "host" [] [sampleCluster] =
      .ok (sortClusters "1.2.3.4" "host" [] (FilterSchedulerClusters [] [sampleCluster])) :=
  ⟨⟨by decide, by decide⟩,
    (findSchedulerClusters_error_taxonomy "1.2.3.4" "host" [] [sampleCluster]).2.2
      (by decide) (by decide)⟩

lemma clusterLess_none_left (ip hostname : String) (conds : CondMap)
    (a b : SchedulerCluster) (h : a.scopes = none) :
    clusterLess ip hostname conds a b = false := by
  simp [clusterLess, h]

lemma clusterLess_none_right (ip hostname : String) (conds : CondMap)
    (a b : SchedulerCluster) (h : b.scopes = none) :
    clusterLess ip hostname conds a b = false := by
  cases ha : a.scopes <;> simp [clusterLess, ha, h]

lemma clusterLess_some (ip hostname : String) (conds : CondMap)
    (a b : SchedulerCluster) (sa sb : Scopes)
    (ha : a.scopes = some sa) (hb : b.scopes = some sb) :
    clusterLess ip hostname conds a b =
      decide (Evaluate ip hostname conds sa a > Evaluate ip hostname conds sb b) := by
  simp [clusterLess, ha, hb]

lemma clusterLe_total (ip hostname : String) (conds : CondMap) (a b : SchedulerCluster) :
    clusterLe ip hostname conds a b ∨ clusterLe ip hostname conds b a := by
  unfold clusterLe
  cases ha : a.scopes with
  | none => exact Or.inr (clusterLess_none_left ip hostname conds a b ha)
  | some sa =>
    cases hb : b.scopes with
    | none => exact Or.inl (clusterLess_none_left ip hostname conds b a hb)
    | some sb =>
      rw [clusterLess_some ip hostname conds b a sb sa hb ha,
        clusterLess_some ip hostname conds a b sa sb ha hb]
      by_cases h : Evaluate ip hostname conds sb b > Evaluate ip hostname conds sa a
      · exact Or.inr (by simp [not_lt.mpr (le_of_lt h)])
      · exact Or.inl (by simp [h])

lemma clusterLe_trans_isSome (ip hostname : String) (conds : CondMap)
    (a b c : SchedulerCluster)
    (ha : a.scopes.isSome = true) (hb : b.scopes.isSome = true) (hc : c.scopes.isSome = true)
    (h1 : clusterLe ip hostname conds a b) (h2 : clusterLe ip hostname conds b c) :
    clusterLe ip hostname conds a c := by
  obtain ⟨sa, hsa⟩ := Option.isSome_iff_exists.mp ha
  obtain ⟨sb, hsb⟩ := Option.isSome_iff_exists.mp hb
  obtain ⟨sc, hsc⟩ := Option.isSome_iff_exists.mp hc
  unfold clusterLe at h1 h2 ⊢
  rw [clusterLess_some ip hostname conds b a sb sa hsb hsa] at h1
  rw [clusterLess_some ip hostname conds c b sc sb hsc hsb] at h2
  rw [clusterLess_some ip hostname conds c a sc sa hsc hsa]
  simp only [decide_eq_false_iff_not, not_lt] at h1 h2 ⊢
  exact le_trans h2 h1

lemma orderedInsert_sorted_decoded (ip hostname : String) (conds : CondMap)
    (x : SchedulerCluster) (l : List SchedulerCluster)
    (hx : x.scopes.isSome = true) (hl : ∀ y ∈ l, y.scopes.isSome = true)
    (hs : List.Sorted (clusterLe ip hostname conds) l) :
    List.Sorted (clusterLe ip hostname conds)
      (List.orderedInsert (clusterLe ip hostname conds) x l) := by
  induction l with
  | nil => exact List.sorted_singleton x
  | cons hd tl ih =>
    rw [List.orderedInsert]
    obtain ⟨hhd, hstl⟩ := List.sorted_cons.mp hs
    split_ifs with hxy
    · refine List.sorted_cons.mpr ⟨?_, hs⟩
      intro y hy
      rcases List.mem_cons.mp hy with rfl | hytl
      · exact hxy
      · exact clusterLe_trans_isSome ip hostname conds x hd y hx
          (hl hd (by simp)) (hl y (by simp [hytl])) hxy (hhd y hytl)
    · refine List.sorted_cons.mpr
        ⟨?_, ih (fun y hy => hl y (by simp [hy])) hstl⟩
      intro y hy
      rcases (List.mem_orderedInsert _).mp hy with rfl | hytl
      · rcases clusterLe_total ip hostname conds y hd with h | h
        · exact absurd h hxy
        · exact h
      · exact hhd y hytl

lemma insertionSort_sorted_decoded (ip hostname : String) (conds : CondMap)
    (l : List SchedulerCluster) (hl : ∀ y ∈ l, y.scopes.isSome = true) :
    List.Sorted (clusterLe ip hostname conds)
      (List.insertionSort (clusterLe ip hostname conds) l) := by
  induction l with
  | nil => exact List.sorted_nil
  | cons a l ih =>
    rw [List.insertionSort]
    refine orderedInsert_sorted_decoded ip hostname conds a _ (hl a (by simp)) ?_
      (ih (fun y hy => hl y (by simp [hy])))
    intro y hy
    exact hl y (by simp [(List.mem_insertionSort _).mp hy])

/-- C3: when FindSchedulerClusters succeeds, the result is a permutation of
the filtered clusters (so a cluster whose scope data fails to decode is
still present in the output); when every filtered cluster's scope data
decodes, the result is ordered by non-increasing Evaluate score, so a
cluster with a strictly higher score precedes one with a lower score; and
the sort comparator returns false in both directions for any comparison
involving a cluster whose scope data fails to decode. -/
theorem findSchedulerClusters_ranking (ip hostname : String) (conds : CondMap)
    (cs out : List SchedulerCluster)
    (h : FindSchedulerClusters ip hostname conds cs = .ok out) :
    List.Perm (FilterSchedulerClusters conds cs) out ∧
    (∀ c ∈ FilterSchedulerClusters conds cs, c ∈ out) ∧
    ((∀ c ∈ FilterSchedulerClusters conds cs, c.scopes.isSome = true) →
      List.Pairwise
        (fun a b => ∀ sa sb, a.scopes = some sa → b.scopes = some sb →
          Evaluate ip hostname conds sa a ≥ Evaluate ip hostname conds sb b) out) ∧
    (∀ a b : SchedulerCluster, a.scopes = none →
      clusterLess ip hostname conds a b = false ∧
        clusterLess ip hostname conds b a = false) := by
  obtain ⟨-, -, rfl⟩ := (find_ok_iff ip hostname conds cs out).mp h
  refine ⟨(List.perm_insertionSort _ _).symm, ?_, ?_, ?_⟩
  · intro c hc
    exact (List.mem_insertionSort _).mpr hc
  · intro hdec
    have hsorted := insertionSort_sorted_decoded ip hostname conds
      (FilterSchedulerClusters conds cs) hdec
    refine List.Pairwise.imp ?_ hsorted
    intro a b hab sa sb hsa hsb
    unfold clusterLe at hab
    rw [clusterLess_some ip hostname conds b a sb sa hsb hsa] at hab
    simpa [decide_eq_false_iff_not, not_lt, ge_iff_le] using hab
  · intro a b hna
    exact ⟨clusterLess_none_left ip hostname conds a b hna,
      clusterLess_none_right ip hostname conds b a hna⟩

/-- Witness for C3 at a concrete input: a one-cluster candidate list, on
which FindSchedulerClusters succeeds by computation. -/
theorem findSchedulerClusters_ranking_witness :
    List.Perm (FilterSchedulerClusters [] [sampleCluster]) [sampleCluster] ∧
    (∀ c ∈ FilterSchedulerClusters [] [sampleCluster], c ∈ [sampleCluster]) ∧
    ((∀ c ∈ FilterSchedulerClusters [] [sampleCluster], c.scopes.isSome = true) →
      List.Pairwise
        (fun a b => ∀ sa sb, a.scopes = some sa → b.scopes = some sb →
          Evaluate "1.2.3.4" "host" [] sa a ≥ Evaluate "1.2.3.4" "host" [] sb b)
        [sampleCluster]) ∧
    (∀ a b : SchedulerCluster, a.scopes = none →
      clusterLess "1.2.3.4" "host" [] a b = false ∧
        clusterLess "1.2.3.4" "host" [] b a = false) :=
  findSchedulerClusters_ranking "1.2.3.4" "host" [] [sampleCluster] [sampleCluster] (by rfl)

end Searcher
